import Mathlib

set_option maxRecDepth 200000
set_option maxHeartbeats 1000000

/-!
# Calendar Hub — verification of the tenant store, ICS proxy and embed pipeline

Shallow embedding of `app/main.py`: the `Calendar` record, the tenant store
operations (`create`, `edit`, `delete`, lookups), the ICS proxy handler
(`proxy_ics`), the embed page handler (`embed`) and the embed script
generator (`embed_script`).  The store is a list of records in insertion
order; SQL `select ... .first()` becomes `List.find?`; the filesystem of
uploaded blobs is a list of paths.  HTTP handler outcomes are modelled with
`Except HttpErr α`, where `HttpErr` carries the status code and the
`detail` string of the raised `HTTPException`.
-/

namespace CalHub

/-- The `Calendar` SQLModel record of `app/main.py` (one row per tenant),
with the same fields and defaults. -/
structure Calendar where
  id : Option Int := none
  name : String
  slug : String
  incoming_ics_url : Option String := none
  primary_color : String := "#0b9444"
  accent_color : String := "#0bd3d3"
  background_color : String := "#ffffff"
  text_color : String := "#222222"
  title_color : String := "#ffffff"
  logo_url : Option String := none
  logo_path : Option String := none
  logo_height : Int := 40
  timezone : String := "America/New_York"
  desktop_view : String := "dayGridMonth"
  mobile_view : String := "listWeek"
  show_name : Bool := true
  is_public : Bool := true
  deriving Repr, DecidableEq

/-- The tenant store: rows of the `calendar` table in insertion order. -/
abbrev Store := List Calendar

/-- An `HTTPException(status_code=..., detail=...)` raised by a handler. -/
structure HttpErr where
  status : Nat
  detail : String
  deriving Repr, DecidableEq

/-- Lookup `session.exec(select(Calendar).where(Calendar.slug == slug)).first()` —
the admin-path lookup used by the edit/delete handlers. -/
def getBySlug (db : Store) (slug : String) : Option Calendar :=
  List.find? (fun c => c.slug == slug) db

/-- Lookup `session.exec(select(Calendar).where(Calendar.slug == slug,
Calendar.is_public == True)).first()` — the public-path lookup used by the
`embed` and `embed_script` handlers. -/
def getPublicBySlug (db : Store) (slug : String) : Option Calendar :=
  List.find? (fun c => c.slug == slug && c.is_public) db

/-- Python truthiness of an `Optional[str]`: `None` and `""` are falsy. -/
def optStrFalsy : Option String → Bool
  | none => true
  | some s => s == ""

/-- Slugs are pairwise distinct in the store (the `unique=True` column
constraint, also enforced by the explicit check in `create_calendar`). -/
def uniqueSlugs (db : Store) : Prop :=
  List.Pairwise (fun a b => a.slug ≠ b.slug) db

/-! ## ICS proxy (`proxy_ics`, `GET|HEAD /api/cal/{slug}/ics`) -/

/-- Outcome of the outbound `httpx` GET in `proxy_ics`: either a
transport-level failure (timeout, DNS, connection reset — `httpx.TransportError`,
a subclass of `httpx.HTTPError`) carrying its exception message, or an HTTP
response with a status code and a body. -/
inductive FetchOutcome where
  | transportError (msg : String)
  | response (status : Nat) (body : String)
  deriving Repr, DecidableEq

/-- Environment model of the message of the `httpx.HTTPStatusError` raised by
`Response.raise_for_status()` on a non-2xx status: it names the status code
and the request URL, and never includes the response body. -/
def statusErrorMessage (status : Nat) (url : String) : String :=
  "HTTP status error " ++ toString status ++ " for url " ++ url

/-- Handler `proxy_ics` (`app/main.py`): look up the tenant by slug (no `is_public`
filter), 404 when the record is missing or `incoming_ics_url` is falsy,
fetch upstream, 502 on any `httpx.HTTPError`, otherwise relay `r.text` with
media type `text/calendar`.  `fetch` is the network environment: what the
GET of a given URL returns. -/
def proxy_ics (db : Store) (slug : String) (fetch : String → FetchOutcome) :
    Except HttpErr (String × String) :=
  match getBySlug db slug with
  | none => .error ⟨404, "Calendar or ICS not found"⟩
  | some cal =>
    match cal.incoming_ics_url with
    | none => .error ⟨404, "Calendar or ICS not found"⟩
    | some url =>
      if url = "" then .error ⟨404, "Calendar or ICS not found"⟩
      else
        match fetch url with
        | .transportError msg => .error ⟨502, "ICS fetch failed: " ++ msg⟩
        | .response status body =>
          if 200 ≤ status ∧ status ≤ 299 then .ok (body, "text/calendar")
          else .error ⟨502, "ICS fetch failed: " ++ statusErrorMessage status url⟩

/-! ## Tenant store mutations (`create_calendar`, `edit_calendar`, `delete_calendar`)

The uploads filesystem is a list of present paths.  `os.remove` deletes a
present path and raises `OSError` on an absent one; both handlers wrap it in
`try/except OSError: pass`, so the net effect is `List.filter`.  Writing an
upload makes its path present. -/

/-- Python `a or b` for an `Optional[str]` `a`: `b` when `a` is `None` or `""`. -/
def pyOr (a : Option String) (b : String) : String :=
  match a with
  | none => b
  | some s => if s = "" then b else s

/-- Modelled from the spec: `make_slug` delegates to the external
`python-slugify` library, which is not part of this repository's source.
Per the spec the slug is "derived from `name`" and URL-safe: lowercase the
alphanumeric characters, turn every other character into a hyphen, collapse
hyphen runs, and strip leading/trailing hyphens. -/
def make_slug (text : String) : String :=
  let mapped := text.data.map (fun c => if c.isAlphanum then c.toLower else '-')
  let dedup := mapped.foldr
    (fun c acc => if c = '-' && acc.head? = some '-' then acc else c :: acc) []
  let trimmed := ((dedup.dropWhile (fun c => c = '-')).reverse.dropWhile
    (fun c => c = '-')).reverse
  String.mk trimmed

/-- Mark a path as present (a completed `open("wb")`/`write`). -/
def fsWrite (p : String) (fs : List String) : List String :=
  if p ∈ fs then fs else p :: fs

/-- Effect of `try: os.remove(p) except OSError: pass` — removal of an absent path
fails, and the failure is swallowed, so the net effect is a filter. -/
def fsRemoveSwallow (p : String) (fs : List String) : List String :=
  fs.filter (fun q => q ≠ p)

/-- Replace the first element satisfying `p` (the SQLModel session mutates
the single object returned by `.first()` in place). -/
def updateFirst (p : α → Bool) (g : α → α) : List α → List α
  | [] => []
  | x :: xs => if p x then g x :: xs else x :: updateFirst p g xs

/-- Remove the first element satisfying `p` (`session.delete(cal)`). -/
def removeFirst (p : α → Bool) : List α → List α
  | [] => []
  | x :: xs => if p x then xs else x :: removeFirst p xs

/-- Fields of the `POST /admin/create` form as present in the HTTP request.
`none` means the field was not supplied; FastAPI then hands the handler the
declared `Form(...)` default.  `name` is required (`Form(...)` with no
default): a request omitting it never reaches the handler. -/
structure CreateForm where
  name : String
  slug : Option String := none
  incoming_ics_url : Option String := none
  logo_url : Option String := none
  logo_file : Option String := none
  primary_color : Option String := none
  accent_color : Option String := none
  background_color : Option String := none
  text_color : Option String := none
  title_color : Option String := none
  timezone : Option String := none
  desktop_view : Option String := none
  mobile_view : Option String := none
  show_name : Option Bool := none
  logo_height : Option Int := none
  deriving Repr, DecidableEq

/-- Handler `create_calendar` (`app/main.py`): derive the slug (`slug or
make_slug(name)`), 400 when a record with that slug already exists, save the
uploaded logo if any, insert the new record with `is_public=True`.  Returns
the new store and filesystem; on error neither is touched (the exception is
raised before any mutation). -/
def create_calendar (db : Store) (f : CreateForm) (fs : List String) :
    Except HttpErr (Store × List String) :=
  let s := pyOr f.slug (make_slug f.name)
  if (getBySlug db s).isSome then .error ⟨400, "Slug already exists"⟩
  else
    let withLogo : Option String × Option String × List String :=
      match f.logo_file with
      | some fn =>
        if fn ≠ "" then
          let dest := "/data/uploads/" ++ s ++ "/" ++ fn
          (some ("/uploads/" ++ s ++ "/" ++ fn), some dest, fsWrite dest fs)
        else (f.logo_url, none, fs)
      | none => (f.logo_url, none, fs)
    let cal : Calendar :=
      { name := f.name
        slug := s
        incoming_ics_url := f.incoming_ics_url
        logo_url := withLogo.1
        logo_path := withLogo.2.1
        primary_color := (f.primary_color).getD "#0b9444"
        accent_color := (f.accent_color).getD "#0bd3d3"
        background_color := (f.background_color).getD "#ffffff"
        text_color := (f.text_color).getD "#222222"
        title_color := (f.title_color).getD "#ffffff"
        timezone := (f.timezone).getD "America/New_York"
        desktop_view := (f.desktop_view).getD "dayGridMonth"
        mobile_view := (f.mobile_view).getD "listWeek"
        show_name := (f.show_name).getD false
        logo_height := (f.logo_height).getD 40
        is_public := true }
    .ok (db ++ [cal], withLogo.2.2)

/-- Fields of the `POST /admin/edit/{slug}` form as present in the HTTP request
(`none` = not supplied, so FastAPI substitutes the declared default).
The target slug comes from the path, not the form. -/
structure EditForm where
  name : String
  incoming_ics_url : Option String := none
  logo_url : Option String := none
  logo_file : Option String := none
  primary_color : Option String := none
  accent_color : Option String := none
  background_color : Option String := none
  text_color : Option String := none
  title_color : Option String := none
  timezone : Option String := none
  desktop_view : Option String := none
  mobile_view : Option String := none
  show_name : Option Bool := none
  logo_height : Option Int := none
  deriving Repr, DecidableEq

/-- The unconditional field assignments of `edit_calendar` (source lines
`cal.name = name` through `cal.logo_height = logo_height`): every scalar
field is overwritten with the supplied-or-default form value; `id`, `slug`
and the logo fields are not assigned here. -/
def applyScalars (cal : Calendar) (f : EditForm) : Calendar :=
  { cal with
    name := f.name
    incoming_ics_url := f.incoming_ics_url
    timezone := (f.timezone).getD "America/New_York"
    desktop_view := (f.desktop_view).getD "dayGridMonth"
    mobile_view := (f.mobile_view).getD "listWeek"
    primary_color := (f.primary_color).getD "#0b9444"
    accent_color := (f.accent_color).getD "#0bd3d3"
    background_color := (f.background_color).getD "#ffffff"
    text_color := (f.text_color).getD "#222222"
    title_color := (f.title_color).getD "#ffffff"
    show_name := (f.show_name).getD false
    logo_height := (f.logo_height).getD 40 }

/-- The in-place mutation `edit_calendar` performs on the record it found:
the scalar overwrites of `applyScalars`, then the logo fields are updated
only when a logo input was supplied. -/
def applyEdit (cal : Calendar) (f : EditForm) (fs : List String) :
    Calendar × List String :=
  let cal' : Calendar := applyScalars cal f
  match f.logo_file with
  | some fn =>
    if fn ≠ "" then
      let dest := "/data/uploads/" ++ cal'.slug ++ "/" ++ fn
      let fs1 := fsWrite dest fs
      let fs2 := match cal'.logo_path with
        | some p => fsRemoveSwallow p fs1
        | none => fs1
      ({ cal' with
          logo_url := some ("/uploads/" ++ cal'.slug ++ "/" ++ fn)
          logo_path := some dest }, fs2)
    else
      match f.logo_url with
      | some u => ({ cal' with logo_url := if u = "" then none else some u }, fs)
      | none => (cal', fs)
  | none =>
    match f.logo_url with
    | some u => ({ cal' with logo_url := if u = "" then none else some u }, fs)
    | none => (cal', fs)

/-- Handler `edit_calendar` (`app/main.py`): look up by slug (admin path), 404 when
missing, otherwise mutate the found record in place per `applyEdit` and
commit. -/
def edit_calendar (db : Store) (slug : String) (f : EditForm)
    (fs : List String) : Except HttpErr (Store × List String) :=
  match getBySlug db slug with
  | none => .error ⟨404, "Calendar not found"⟩
  | some cal =>
    let (cal', fs') := applyEdit cal f fs
    .ok (updateFirst (fun c => c.slug == slug) (fun _ => cal') db, fs')

/-- Handler `delete_calendar` (`app/main.py`): look up by slug, 404 when missing,
best-effort removal of the logo blob (`OSError` swallowed), then delete the
record and commit. -/
def delete_calendar (db : Store) (slug : String) (fs : List String) :
    Except HttpErr (Store × List String) :=
  match getBySlug db slug with
  | none => .error ⟨404, "Calendar not found"⟩
  | some cal =>
    let fs' := match cal.logo_path with
      | some p => fsRemoveSwallow p fs
      | none => fs
    .ok (removeFirst (fun c => c.slug == slug) db, fs')

/-- Listing `select(Calendar).order_by(Calendar.name)).all()` — all records sorted
by name. -/
def listAll (db : Store) : List Calendar :=
  db.mergeSort (fun a b => a.name ≤ b.name)

/-! ## Python `str.replace` on character lists

The embed page handler renders its template with a chain of
`tpl.replace("...", value)` calls.  `replaceList` is left-to-right
non-overlapping replacement of every occurrence, Python's semantics for the
non-empty patterns the handler uses. -/

/-- Fuel-driven scanner behind `replaceList`, structurally recursive on the
fuel so that concrete instances reduce inside the kernel.  With
`fuel ≥ l.length` the fuel never runs out, since every step consumes at
least one character. -/
def replaceFuel (p v : List Char) : Nat → List Char → List Char
  | _, [] => []
  | 0, l => l
  | fuel + 1, c :: cs =>
    if p ≠ [] ∧ p.isPrefixOf (c :: cs) then
      v ++ replaceFuel p v fuel ((c :: cs).drop p.length)
    else
      c :: replaceFuel p v fuel cs

/-- Python `s.replace(p, v)` over characters, for non-empty `p`: scan left
to right and replace each occurrence of `p` with `v`, resuming after it. -/
def replaceList (p v l : List Char) : List Char :=
  replaceFuel p v l.length l

/-- Python `s.replace(pat, rep)` on strings. -/
def pyReplace (s pat rep : String) : String :=
  String.mk (replaceList pat.data rep.data s.data)

/-! ### Chains of placeholder substitutions

The embed page handler performs thirteen `str.replace` calls in sequence.
`substChain` is that sequence; the chain theorem characterises its result
when every placeholder starts with the brace character, occurs exactly once,
and no substituted value or literal segment contains a brace. -/

/-- The opening-brace character of the placeholder syntax. -/
def brOpen : Char := Char.ofNat 123

/-- A string that contains no opening brace, so it can neither contain nor
begin an occurrence of any placeholder. -/
def noBrace (s : String) : Prop := brOpen ∉ s.data

instance (s : String) : Decidable (noBrace s) := by
  unfold noBrace; infer_instance

/-- A chain item: placeholder pattern, substituted value, and the literal
template segment that follows the placeholder. -/
structure ChainItem where
  pat : List Char
  val : List Char
  seg : List Char

/-- Tail of the template: the placeholders interleaved with the following
literal segments. -/
def tailP : List ChainItem → List Char
  | [] => []
  | it :: rest => it.pat ++ it.seg ++ tailP rest

/-- Tail of the substituted output: the values interleaved with the same
literal segments. -/
def tailV : List ChainItem → List Char
  | [] => []
  | it :: rest => it.val ++ it.seg ++ tailV rest

/-- Sequential substitutions, one per chain item, in order. -/
def substChain (l : List Char) : List ChainItem → List Char
  | [] => l
  | it :: rest => substChain (replaceList it.pat it.val l) rest

/-- Soundness conditions for the chain: every pattern starts with a brace,
values and segments are brace-free, and no pattern occurs in the template
text that follows its own placeholder. -/
def ChainOK : List ChainItem → Prop
  | [] => True
  | it :: rest =>
    it.pat.head? = some brOpen ∧ brOpen ∉ it.val ∧ brOpen ∉ it.seg ∧
      ¬ it.pat <:+: (it.seg ++ tailP rest) ∧ ChainOK rest

/-! ## Embed page (`embed`, `GET /c/{slug}/embed`) -/

/-- Logo markup built by the `embed` handler — a raw f-string interpolation
of `cal.logo_url` and `cal.name`, with no escaping:
`f"<img class='logo' src=\"...\" alt=\"... logo\">"` when `cal.logo_url` is
truthy, `""` otherwise. -/
def embedLogoHtml (cal : Calendar) : String :=
  if optStrFalsy cal.logo_url then ""
  else
    "<img class='logo' src=\"" ++ cal.logo_url.getD "" ++ "\" alt=\"" ++
      cal.name ++ " logo\">"

/-- Title markup built by the `embed` handler — a raw interpolation of
`cal.name`, with no escaping, when `show_name` is set. -/
def embedTitleHtml (cal : Calendar) : String :=
  if cal.show_name then "<h1 style='margin-left:8px'>" ++ cal.name ++ "</h1>"
  else ""

/-- Modelled from the spec: the template file `templates/embed.html` is code
of this repository that is not under `src/` (the handler reads it at
request time), so it is reconstructed from §4.3 of the spec — a standalone
HTML document that deterministically encodes the logo, the conditional
title, the slug, all five theme colors, both views, the timezone and the
logo height through the thirteen placeholders the handler substitutes.
Each placeholder occurs exactly once, in the handler's substitution order,
and the literal text contains no brace outside the placeholders. -/
def embedTemplate : String :=
  "<html><head><meta charset=\"utf-8\"><title>Calendar</title></head><body>" ++
  "<header class=\"bar\"><div class=\"left\">\x7b\x7bLOGO\x7d\x7d\x7b\x7bTITLE\x7d\x7d</div></header>" ++
  "<div id=\"calendar\" data-title=\"\x7b\x7bTITLE_TEXT\x7d\x7d\" data-slug=\"\x7b\x7bSLUG\x7d\x7d\"" ++
  " data-primary=\"\x7b\x7bPRIMARY\x7d\x7d\" data-accent=\"\x7b\x7bACCENT\x7d\x7d\" data-bg=\"\x7b\x7bBG\x7d\x7d\"" ++
  " data-text=\"\x7b\x7bTEXT_COLOR\x7d\x7d\" data-title-color=\"\x7b\x7bTITLE_COLOR\x7d\x7d\"" ++
  " data-desktop-view=\"\x7b\x7bDESKTOP_VIEW\x7d\x7d\" data-mobile-view=\"\x7b\x7bMOBILE_VIEW\x7d\x7d\"" ++
  " data-tz=\"\x7b\x7bTZ\x7d\x7d\" data-logo-height=\"\x7b\x7bLOGO_HEIGHT\x7d\x7d\"></div></body></html>"

/-- Rendering chain of the `embed` handler, verbatim from the source:
thirteen `str.replace` calls in source order on the template text. -/
def renderEmbedPage (cal : Calendar) : String :=
  let t1 := pyReplace embedTemplate "\x7b\x7bLOGO\x7d\x7d" (embedLogoHtml cal)
  let t2 := pyReplace t1 "\x7b\x7bTITLE\x7d\x7d" (embedTitleHtml cal)
  let t3 := pyReplace t2 "\x7b\x7bTITLE_TEXT\x7d\x7d" cal.name
  let t4 := pyReplace t3 "\x7b\x7bSLUG\x7d\x7d" cal.slug
  let t5 := pyReplace t4 "\x7b\x7bPRIMARY\x7d\x7d" cal.primary_color
  let t6 := pyReplace t5 "\x7b\x7bACCENT\x7d\x7d" cal.accent_color
  let t7 := pyReplace t6 "\x7b\x7bBG\x7d\x7d" cal.background_color
  let t8 := pyReplace t7 "\x7b\x7bTEXT_COLOR\x7d\x7d" cal.text_color
  let t9 := pyReplace t8 "\x7b\x7bTITLE_COLOR\x7d\x7d" cal.title_color
  let t10 := pyReplace t9 "\x7b\x7bDESKTOP_VIEW\x7d\x7d" cal.desktop_view
  let t11 := pyReplace t10 "\x7b\x7bMOBILE_VIEW\x7d\x7d" cal.mobile_view
  let t12 := pyReplace t11 "\x7b\x7bTZ\x7d\x7d" cal.timezone
  pyReplace t12 "\x7b\x7bLOGO_HEIGHT\x7d\x7d" (toString cal.logo_height)

/-- Handler `embed` (`GET /c/{slug}/embed`): public lookup (missing and
non-public tenants take the same branch), 404 `"Calendar not found"`, else
the rendered template served as HTML. -/
def embed (db : Store) (slug : String) : Except HttpErr String :=
  match getPublicBySlug db slug with
  | none => .error ⟨404, "Calendar not found"⟩
  | some cal => .ok (renderEmbedPage cal)

/-- Modelled from the spec: the HTML escaping that §4.3 declares mandatory
for `name` and `logoUrl` ("no raw user-controlled string may break out of
its HTML attribute/text context").  The handler in the source performs no
escaping; this function exists to state the claim the code fails. -/
def htmlEscape (s : String) : String :=
  String.mk (s.data.foldr (fun c acc =>
    (if c = '&' then "&amp;".data
     else if c = '<' then "&lt;".data
     else if c = '>' then "&gt;".data
     else if c = Char.ofNat 34 then "&quot;".data
     else if c = Char.ofNat 39 then "&#39;".data
     else [c]) ++ acc) [])

/-- The rendering the spec prescribes: the same substitution chain, but with
`name` and `logoUrl` passed through `htmlEscape` wherever they are embedded.
Defined only to state claim C1; the source does not contain it. -/
def renderEmbedPageEscaped (cal : Calendar) : String :=
  let esc : Calendar :=
    { cal with
      name := htmlEscape cal.name
      logo_url := cal.logo_url.map htmlEscape }
  renderEmbedPage esc

/-! ### The embed rendering as a substitution chain -/

/-- Literal text of the template before the first placeholder. -/
def embedSeg0 : List Char :=
  ("<html><head><meta charset=\"utf-8\"><title>Calendar</title></head><body>" ++
    "<header class=\"bar\"><div class=\"left\">").data

/-- The thirteen substitutions of the `embed` handler, each with the literal
template segment that follows its placeholder. -/
def embedItems (cal : Calendar) : List ChainItem :=
  [⟨"\x7b\x7bLOGO\x7d\x7d".data, (embedLogoHtml cal).data, []⟩,
   ⟨"\x7b\x7bTITLE\x7d\x7d".data, (embedTitleHtml cal).data,
     "</div></header><div id=\"calendar\" data-title=\"".data⟩,
   ⟨"\x7b\x7bTITLE_TEXT\x7d\x7d".data, cal.name.data, "\" data-slug=\"".data⟩,
   ⟨"\x7b\x7bSLUG\x7d\x7d".data, cal.slug.data, "\" data-primary=\"".data⟩,
   ⟨"\x7b\x7bPRIMARY\x7d\x7d".data, cal.primary_color.data, "\" data-accent=\"".data⟩,
   ⟨"\x7b\x7bACCENT\x7d\x7d".data, cal.accent_color.data, "\" data-bg=\"".data⟩,
   ⟨"\x7b\x7bBG\x7d\x7d".data, cal.background_color.data, "\" data-text=\"".data⟩,
   ⟨"\x7b\x7bTEXT_COLOR\x7d\x7d".data, cal.text_color.data, "\" data-title-color=\"".data⟩,
   ⟨"\x7b\x7bTITLE_COLOR\x7d\x7d".data, cal.title_color.data, "\" data-desktop-view=\"".data⟩,
   ⟨"\x7b\x7bDESKTOP_VIEW\x7d\x7d".data, cal.desktop_view.data, "\" data-mobile-view=\"".data⟩,
   ⟨"\x7b\x7bMOBILE_VIEW\x7d\x7d".data, cal.mobile_view.data, "\" data-tz=\"".data⟩,
   ⟨"\x7b\x7bTZ\x7d\x7d".data, cal.timezone.data, "\" data-logo-height=\"".data⟩,
   ⟨"\x7b\x7bLOGO_HEIGHT\x7d\x7d".data, (toString cal.logo_height).data,
     "\"></div></body></html>".data⟩]

/-! ## Embed script generator (`embed_script`, `GET /c/{slug}/embed.js`) -/

/-- An inbound request as `embed_script`/`embed_code` see it:
the optional `x-forwarded-proto`/`x-forwarded-host` headers and the request
URL's own scheme and netloc. -/
structure Req where
  xForwardedProto : Option String := none
  xForwardedHost : Option String := none
  urlScheme : String := "http"
  urlNetloc : String := "localhost:8080"
  deriving Repr, DecidableEq

/-- Python `s.rstrip("/")`: drop every trailing slash. -/
def rstripSlash (s : String) : String :=
  String.mk ((s.data.reverse.dropWhile (fun c => c = '/')).reverse)

/-- Base URL resolution of `embed_script`:
`request.headers.get("x-forwarded-proto", request.url.scheme)`,
`request.headers.get("x-forwarded-host", request.url.netloc)`, then
`f"{scheme}://{host}".rstrip("/")`. -/
def resolveBase (req : Req) : String :=
  let scheme := req.xForwardedProto.getD req.urlScheme
  let host := req.xForwardedHost.getD req.urlNetloc
  rstripSlash (scheme ++ "://" ++ host)

/-- Absolute ICS proxy URL `f"{base}/api/cal/{cal.slug}/ics"`. -/
def icsProxyUrl (base slug : String) : String :=
  base ++ "/api/cal/" ++ slug ++ "/ics"

/-- Absolute logo URL of `embed_script`: empty when unset, passed through
when already `http://`/`https://`, otherwise prefixed with the base. -/
def embedScriptLogoUrl (base : String) (cal : Calendar) : String :=
  match cal.logo_url with
  | none => ""
  | some u =>
    if u = "" then ""
    else if "http://".data.isPrefixOf u.data || "https://".data.isPrefixOf u.data
    then u
    else base ++ u

/-! Literal pieces of the generated-script f-string, split at its
interpolation points (`{base}`, `{logo_html}{title_html}`, `{cal.timezone}`,
the five colors, `{cal.logo_height}`, `{cal.mobile_view}`,
`{cal.desktop_view}`, `{cal.timezone}`, `{ics_url}`), with the doubled
braces of the f-string collapsed to single literal braces. -/

/-- Script text from the start through `loadStyle('`. -/
def jsChunk1 : String :=
  "\n(function()\x7b\n  const loadStyle = href => new Promise((res, rej) => \x7b\n    if (document.querySelector(`link[href=\"$\x7bhref\x7d\"]`)) return res();\n    const l=document.createElement('link');\n    l.rel='stylesheet';\n    l.href=href;\n    l.onload=res;\n    l.onerror=rej;\n    document.head.appendChild(l);\n  \x7d);\n  const loadScript = src => new Promise((res, rej) => \x7b\n    if (document.querySelector(`script[src=\"$\x7bsrc\x7d\"]`)) return res();\n    const s=document.createElement('script');\n    s.src=src;\n    s.onload=res;\n    s.onerror=rej;\n    document.head.appendChild(s);\n  \x7d);\n\n  async function init()\x7b\n    await loadStyle('https://cdn.jsdelivr.net/npm/fullcalendar@6.1.15/index.global.min.css');\n    await loadStyle('"

/-- Script text between `{base}` and `{logo_html}{title_html}`. -/
def jsChunk2 : String :=
  "/static/styles.css');\n    await loadScript('https://cdn.jsdelivr.net/npm/fullcalendar@6.1.15/index.global.min.js');\n    await loadScript('https://cdn.jsdelivr.net/npm/@fullcalendar/icalendar@6.1.15/index.global.min.js');\n\n    const container=document.getElementById('calendar-container');\n    if(!container) return;\n    container.innerHTML=`<div class='wrap'><header class=\"bar\"><div class=\"left\">"

/-- Script text between `{title_html}` and the first `{cal.timezone}`. -/
def jsChunk3 : String := "</div><div class=\"muted\">"

/-- Script text from the timezone label through `--primary:`. -/
def jsChunk4 : String :=
  "</div></header><div id=\"calendar\"></div></div>`;\n    const style=document.createElement('style');\n    style.textContent=`#calendar-container\x7b--primary:"

/-- Script text between the primary and accent colors. -/
def jsChunk5 : String := ";--accent:"

/-- Script text between the accent and background colors. -/
def jsChunk6 : String := ";--bg:"

/-- Script text between the background and text colors. -/
def jsChunk7 : String := ";--text:"

/-- Script text between the text and title colors. -/
def jsChunk8 : String := ";--title:"

/-- Script text between the title color and `{cal.logo_height}`. -/
def jsChunk9 : String := ";\x7d#calendar-container .logo\x7bheight:"

/-- Script text between the logo height and `{cal.mobile_view}`. -/
def jsChunk10 : String :=
  "px;object-fit:contain\x7d`;\n    document.head.appendChild(style);\n    const el=container.querySelector('#calendar');\n    const isMobile=window.matchMedia('(max-width: 768px)').matches;\n    const initialView=isMobile?'"

/-- Script text between the mobile and desktop views. -/
def jsChunk11 : String := "':'"

/-- Script text from the desktop view through `timeZone:'`. -/
def jsChunk12 : String :=
  "';\n    const headerDesktop=\x7b left:'prev,next today', center:'title', right:'dayGridMonth,timeGridWeek,timeGridDay,listWeek' \x7d;\n    const headerMobile=\x7b center:'title', left:'', right:'' \x7d;\n    const footerMobile=\x7b left:'prev,next today', right:'dayGridMonth,timeGridWeek,timeGridDay,listWeek' \x7d;\n    const colors=getComputedStyle(container);\n    const calendar=new FullCalendar.Calendar(el,\x7bthemeSystem:'standard',initialView,headerToolbar:isMobile?headerMobile:headerDesktop,footerToolbar:isMobile?footerMobile:undefined,height:'auto',nowIndicator:true,eventDisplay:'block',eventColor:colors.getPropertyValue('--primary'),eventBorderColor:colors.getPropertyValue('--accent'),eventTextColor:colors.getPropertyValue('--text'),timeZone:'"

/-- Script text between the second `{cal.timezone}` and `{ics_url}` — the
opening of the sole entry of the `events` array. -/
def jsChunk13 : String := "',events:[\x7burl:'"

/-- Script text after `{ics_url}`: the close of the single event source and
the remainder of the script. -/
def jsChunk14 : String :=
  "',format:'ics'\x7d]\x7d);\n    calendar.render();\n    \x7d\n    if (document.readyState === 'loading') \x7b\n      document.addEventListener('DOMContentLoaded', init);\n    \x7d else \x7b\n      init();\n    \x7d\n  \x7d)();\n  "

/-- The generated script up to and including the `timeZone:'...` value:
the literal chunks with `base`, the logo/title markup and the theme values
interpolated at their places, verbatim from the source's f-string. -/
def embedScriptJsPrefix (base : String) (cal : Calendar) : String :=
  let logo_url := embedScriptLogoUrl base cal
  let logo_html :=
    if logo_url = "" then ""
    else
      "<img class=\"logo\" src=\"" ++ logo_url ++ "\" alt=\"" ++ cal.name ++
        " logo\">"
  let title_html :=
    if cal.show_name then
      "<h1 style='margin-left:8px'>" ++ cal.name ++ "</h1>"
    else ""
  jsChunk1 ++ base ++ jsChunk2 ++ logo_html ++ title_html ++ jsChunk3 ++
    cal.timezone ++ jsChunk4 ++ cal.primary_color ++ jsChunk5 ++
    cal.accent_color ++ jsChunk6 ++ cal.background_color ++ jsChunk7 ++
    cal.text_color ++ jsChunk8 ++ cal.title_color ++ jsChunk9 ++
    toString cal.logo_height ++ jsChunk10 ++ cal.mobile_view ++ jsChunk11 ++
    cal.desktop_view ++ jsChunk12 ++ cal.timezone

/-- The generated script of `embed_script`, verbatim from the source's
f-string: the prefix above, then the `events` entry built around the ICS
proxy URL, then the closing chunk. -/
def embedScriptJs (base : String) (cal : Calendar) : String :=
  embedScriptJsPrefix base cal ++ jsChunk13 ++ icsProxyUrl base cal.slug ++
    jsChunk14

/-- Handler `embed_script` (`GET /c/{slug}/embed.js`): public lookup
(missing and non-public tenants take the same branch), 404
`"Calendar not found"`, else the generated script as `text/javascript`. -/
def embed_script (db : Store) (slug : String) (req : Req) :
    Except HttpErr String :=
  match getPublicBySlug db slug with
  | none => .error ⟨404, "Calendar not found"⟩
  | some cal => .ok (embedScriptJs (resolveBase req) cal)

/-- Semantic reading of the FullCalendar constructor options the generated
script passes, read off the source f-string
(`initialView=isMobile?'{cal.mobile_view}':'{cal.desktop_view}'`,
`timeZone:'{cal.timezone}'`, `events:[\x7burl:'{ics_url}',format:'ics'\x7d]`):
in particular, the event-source list is a one-element array. -/
structure FcConfig where
  initialViewMobile : String
  initialViewDesktop : String
  timeZone : String
  events : List (String × String)
  deriving Repr, DecidableEq

/-- The FullCalendar options of the script `embed_script` generates for a
tenant, per the semantic reading above. -/
def embedScriptConfig (base : String) (cal : Calendar) : FcConfig :=
  { initialViewMobile := cal.mobile_view
    initialViewDesktop := cal.desktop_view
    timeZone := cal.timezone
    events := [(icsProxyUrl base cal.slug, "ics")] }

/-- The public tenant of the C1 counterexample: its display name is the
HTML-significant string `<x>`. -/
def calC1 : Calendar := { name := "<x>", slug := "t" }

/-- A benign tenant used as concrete witness input: brace-free name, colors
and logo URL. -/
def calW : Calendar :=
  { name := "Team", slug := "team", logo_url := some "/uploads/team/logo.png" }

/-- The non-public tenant of the C2/C10 scenarios. -/
def calPriv : Calendar := { name := "Test", slug := "test", is_public := false }

/-- A tenant with no configured feed, for the C3 witness. -/
def calNoFeed : Calendar := { name := "NoFeed", slug := "nofeed" }

/-- The tenant with a configured upstream feed used by the C4/C7
scenarios. -/
def calFeed : Calendar :=
  { name := "U", slug := "u", incoming_ics_url := some "http://up.example/feed.ics" }

/-- A record stored under the explicit slug `foo`, for the C5 scenario. -/
def calFoo : Calendar := { name := "Other", slug := "foo" }

/-- The stored record of the C6 counterexample: it has a configured feed
URL and a non-default primary color. -/
def calEdit : Calendar :=
  { name := "Old", slug := "a", incoming_ics_url := some "http://x",
    primary_color := "#123456", show_name := false }

/-- What the name-only edit of `calEdit` produces: the feed URL cleared and
the primary color reset to the handler's default. -/
def calEditAfter : Calendar :=
  { calEdit with incoming_ics_url := none, primary_color := "#0b9444" }

/-- The tenant with an owned logo blob, for the C9 witness. -/
def calLogo : Calendar :=
  { name := "L", slug := "l", logo_path := some "/data/uploads/l/logo.png",
    logo_url := some "/uploads/l/logo.png" }

/-! ## Reachable-state invariant (C10) -/

/-- One admin mutation as dispatched by the HTTP layer. -/
inductive AdminOp where
  | create (f : CreateForm)
  | edit (slug : String) (f : EditForm)
  | delete (slug : String)

/-- Apply one handler to the store-plus-filesystem state; a raised
`HTTPException` leaves the state unchanged. -/
def applyOp (st : Store × List String) : AdminOp → Store × List String
  | .create f =>
    match create_calendar st.1 f st.2 with
    | .ok st' => st'
    | .error _ => st
  | .edit slug f =>
    match edit_calendar st.1 slug f st.2 with
    | .ok st' => st'
    | .error _ => st
  | .delete slug =>
    match delete_calendar st.1 slug st.2 with
    | .ok st' => st'
    | .error _ => st

/-- Run a sequence of admin mutations. -/
def runOps (st : Store × List String) (ops : List AdminOp) :
    Store × List String :=
  ops.foldl applyOp st

/-- Every record of the store is public. -/
def allPublic (db : Store) : Prop := ∀ c ∈ db, c.is_public = true

/-- The concrete reverse-proxied request of the C8 witness. -/
def reqW : Req :=
  { xForwardedProto := some "https", xForwardedHost := some "cal.example.org" }

/-! ## Theorems -/

/-- Any sufficient amount of fuel computes the same result. -/
theorem replaceFuel_fuel_irrel (p v : List Char) :
    ∀ fuel fuel' l, l.length ≤ fuel → l.length ≤ fuel' →
      replaceFuel p v fuel l = replaceFuel p v fuel' l := by
  intro fuel
  induction fuel with
  | zero =>
    intro fuel' l hl _
    have : l = [] := List.length_eq_zero.mp (Nat.le_zero.mp hl)
    subst this
    cases fuel' <;> rfl
  | succ f ih =>
    intro fuel' l hl hl'
    cases l with
    | nil => cases fuel' <;> rfl
    | cons c cs =>
      cases fuel' with
      | zero => simp at hl'
      | succ f' =>
        have hcs : cs.length ≤ f := by simp at hl; omega
        have hcs' : cs.length ≤ f' := by simp at hl'; omega
        rw [replaceFuel, replaceFuel]
        by_cases hc : p ≠ [] ∧ p.isPrefixOf (c :: cs)
        · rw [if_pos hc, if_pos hc]
          congr 1
          have hlen : 0 < p.length := List.length_pos.mpr hc.1
          have hd : ((c :: cs).drop p.length).length ≤ cs.length := by
            simp only [List.length_drop, List.length_cons]
            omega
          exact ih f' _ (le_trans hd hcs) (le_trans hd hcs')
        · rw [if_neg hc, if_neg hc]
          exact congrArg (c :: ·) (ih f' cs hcs hcs')

/-- Unfolding `replaceList` on the empty list. -/
theorem replaceList_nil (p v : List Char) : replaceList p v [] = [] := rfl

/-- One-step unfolding of `replaceList` on a cons cell. -/
theorem replaceList_cons (p v : List Char) (c : Char) (cs : List Char) :
    replaceList p v (c :: cs) =
      if p ≠ [] ∧ p.isPrefixOf (c :: cs) then
        v ++ replaceList p v ((c :: cs).drop p.length)
      else c :: replaceList p v cs := by
  show replaceFuel p v (cs.length + 1) (c :: cs) = _
  rw [replaceFuel]
  by_cases hc : p ≠ [] ∧ p.isPrefixOf (c :: cs)
  · rw [if_pos hc, if_pos hc]
    congr 1
    apply replaceFuel_fuel_irrel
    · have hlen : 0 < p.length := List.length_pos.mpr hc.1
      simp only [List.length_drop, List.length_cons]
      omega
    · exact le_rfl
  · rw [if_neg hc, if_neg hc]
    rfl

/-- Characters of a string built from a character list. -/
theorem data_mk (l : List Char) : (String.mk l).data = l := rfl

/-- A pattern that occurs nowhere in `l` is not replaced. -/
theorem replaceList_no_occurrence {p : List Char} (v : List Char)
    {l : List Char} (habs : ¬ p <:+: l) :
    replaceList p v l = l := by
  induction l with
  | nil => rw [replaceList_nil]
  | cons c cs ih =>
    rw [replaceList_cons]
    have hnp : ¬ (p ≠ [] ∧ p.isPrefixOf (c :: cs)) := by
      rintro ⟨-, hpre⟩
      exact habs (List.IsPrefix.isInfix (List.isPrefixOf_iff_prefix.mp hpre))
    rw [if_neg hnp]
    have : ¬ p <:+: cs := fun hi => habs (List.infix_cons hi)
    rw [ih this]

/-- Replacing across a leading occurrence: when the head character of `p`
does not occur in `A`, the scan passes over `A` untouched, consumes the
explicit occurrence of `p`, and continues in `B`. -/
theorem replaceList_head_occurrence {p : List Char} (v : List Char)
    {c0 : Char} (hc0 : p.head? = some c0) (A B : List Char) (hA : c0 ∉ A) :
    replaceList p v (A ++ p ++ B) = A ++ v ++ replaceList p v B := by
  induction A with
  | nil =>
    obtain ⟨ptl, hp⟩ : ∃ ptl, p = c0 :: ptl := by
      cases p with
      | nil => simp at hc0
      | cons a as =>
        have ha : a = c0 := by simpa using hc0
        exact ⟨as, by rw [ha]⟩
    subst hp
    simp only [List.nil_append, List.cons_append]
    rw [replaceList_cons]
    have hcond : (c0 :: ptl) ≠ [] ∧
        (c0 :: ptl).isPrefixOf (c0 :: (ptl ++ B)) := by
      refine ⟨by simp, ?_⟩
      rw [List.isPrefixOf_iff_prefix]
      exact ⟨B, by simp⟩
    rw [if_pos hcond]
    have hdrop : (c0 :: (ptl ++ B)).drop (c0 :: ptl).length = B := by
      simpa using List.drop_left ptl B
    rw [hdrop]
  | cons x A' ih =>
    have hx : x ≠ c0 := fun hxe => hA (by simp [hxe])
    have hA' : c0 ∉ A' := fun hmem => hA (by simp [hmem])
    simp only [List.cons_append]
    rw [replaceList_cons]
    have hnp : ¬ (p ≠ [] ∧ p.isPrefixOf (x :: (A' ++ p ++ B))) := by
      rintro ⟨-, hpre⟩
      obtain ⟨t, ht⟩ := List.isPrefixOf_iff_prefix.mp hpre
      cases p with
      | nil => simp at hc0
      | cons a as =>
        have ha : a = c0 := by simpa using hc0
        have hax : a = x := by
          have h2 := congrArg List.head? ht
          simpa using h2
        exact hx (hax.symm.trans ha)
    rw [if_neg hnp]
    have hrec := ih hA'
    simp only [List.append_assoc] at hrec ⊢
    rw [hrec]

/-- One full substitution step: a single explicit occurrence of `p`,
no `p`-head character earlier, no occurrence of `p` later. -/
theorem replaceList_subst {p : List Char} (v : List Char) {c0 : Char}
    (hc0 : p.head? = some c0) (A B : List Char) (hA : c0 ∉ A)
    (hB : ¬ p <:+: B) :
    replaceList p v (A ++ p ++ B) = A ++ v ++ B := by
  rw [replaceList_head_occurrence v hc0 A B hA,
    replaceList_no_occurrence v hB]

/-- Unfolding `substChain` on a cons cell. -/
theorem substChain_cons (l : List Char) (it : ChainItem) (rest : List ChainItem) :
    substChain l (it :: rest) = substChain (replaceList it.pat it.val l) rest :=
  rfl

/-- Unfolding `substChain` on the empty chain. -/
theorem substChain_nil (l : List Char) : substChain l [] = l := rfl

/-- Chain theorem: a well-formed substitution chain rewrites each
placeholder to its value, in place, and touches nothing else. -/
theorem substChain_eq (items : List ChainItem) (A : List Char)
    (hA : brOpen ∉ A) (hok : ChainOK items) :
    substChain (A ++ tailP items) items = A ++ tailV items := by
  induction items generalizing A with
  | nil => simp [substChain, tailP, tailV]
  | cons it rest ih =>
    obtain ⟨hpat, hval, hseg, htl, hrest⟩ := hok
    rw [tailP, substChain]
    have hstep : replaceList it.pat it.val (A ++ (it.pat ++ it.seg ++ tailP rest)) =
        (A ++ it.val ++ it.seg) ++ tailP rest := by
      have := replaceList_subst it.val hpat A (it.seg ++ tailP rest) hA htl
      simp only [List.append_assoc] at this ⊢
      rw [this]
    rw [hstep]
    have hA' : brOpen ∉ A ++ it.val ++ it.seg := by
      simp only [List.mem_append]
      rintro ((h | h) | h)
      · exact hA h
      · exact hval h
      · exact hseg h
    rw [ih (A ++ it.val ++ it.seg) hA' hrest, tailV]
    simp [List.append_assoc]

/-- An infix stays an infix after extending on the left. -/
theorem infix_extend_left {l t : List Char} (s : List Char) (h : l <:+: t) :
    l <:+: s ++ t := by
  obtain ⟨a, b, hab⟩ := h
  exact ⟨s ++ a, b, by rw [← hab]; simp⟩

/-- A list is an infix of itself followed by anything. -/
theorem infix_self_append (l rest : List Char) : l <:+: l ++ rest :=
  List.IsPrefix.isInfix ⟨rest, rfl⟩

/-! ### Brace-freeness facts -/

/-- Concatenation preserves brace-freeness. -/
theorem noBrace_append {s t : String} (hs : noBrace s) (ht : noBrace t) :
    noBrace (s ++ t) := by
  unfold noBrace at *
  rw [String.data_append]
  rw [List.mem_append]
  rintro (h | h)
  · exact hs h
  · exact ht h

/-- Every character `Nat.digitChar` produces differs from the brace. -/
theorem digitChar_ne_brOpen (n : Nat) : Nat.digitChar n ≠ brOpen := by
  rcases n with _|_|_|_|_|_|_|_|_|_|_|_|_|_|_|_|m
  all_goals first
    | decide
    | (unfold Nat.digitChar; simp; decide)

/-- Characters of `Nat.toDigitsCore` come from `digitChar` or the
accumulator. -/
theorem toDigitsCore_chars (base : Nat) :
    ∀ (fuel n : Nat) (ds : List Char) (c : Char),
      c ∈ Nat.toDigitsCore base fuel n ds →
      (∃ m, c = Nat.digitChar m) ∨ c ∈ ds := by
  intro fuel
  induction fuel with
  | zero => exact fun n ds c h => .inr h
  | succ f ih =>
    intro n ds c hmem
    simp only [Nat.toDigitsCore] at hmem
    by_cases h : n / base = 0
    · rw [if_pos h] at hmem
      rcases List.mem_cons.mp hmem with h1 | h2
      · exact .inl ⟨n % base, h1⟩
      · exact .inr h2
    · rw [if_neg h] at hmem
      rcases ih _ _ _ hmem with h1 | h2
      · exact .inl h1
      · rcases List.mem_cons.mp h2 with h3 | h4
        · exact .inl ⟨n % base, h3⟩
        · exact .inr h4

/-- Decimal representations of naturals are brace-free. -/
theorem natRepr_noBrace (n : Nat) : noBrace (Nat.repr n) := by
  unfold noBrace Nat.repr
  intro hmem
  rcases toDigitsCore_chars 10 (n + 1) n [] brOpen hmem with ⟨m, hm⟩ | h
  · exact digitChar_ne_brOpen m hm.symm
  · simp at h

/-- String representations of integers (`str(cal.logo_height)`) are
brace-free. -/
theorem intToString_noBrace (i : Int) : noBrace (toString i) := by
  cases i with
  | ofNat m => exact natRepr_noBrace m
  | negSucc m =>
    show noBrace ("-" ++ Nat.repr (m + 1))
    exact noBrace_append (by decide) (natRepr_noBrace (m + 1))

/-- The logo markup is brace-free whenever `name` and `logo_url` are. -/
theorem embedLogoHtml_noBrace (cal : Calendar) (hname : noBrace cal.name)
    (hlogo : noBrace (cal.logo_url.getD "")) : noBrace (embedLogoHtml cal) := by
  unfold embedLogoHtml
  by_cases h : optStrFalsy cal.logo_url
  · rw [if_pos h]; decide
  · rw [if_neg h]
    exact noBrace_append (noBrace_append (noBrace_append
      (noBrace_append (by decide) hlogo) (by decide)) hname) (by decide)

/-- The title markup is brace-free whenever `name` is. -/
theorem embedTitleHtml_noBrace (cal : Calendar) (hname : noBrace cal.name) :
    noBrace (embedTitleHtml cal) := by
  unfold embedTitleHtml
  by_cases h : cal.show_name
  · rw [if_pos h]
    exact noBrace_append (noBrace_append (by decide) hname) (by decide)
  · rw [if_neg h]; decide

/-- The rendering chain is literally `substChain` over the items. -/
theorem renderEmbedPage_substChain (cal : Calendar) :
    (renderEmbedPage cal).data = substChain embedTemplate.data (embedItems cal) := by
  simp only [renderEmbedPage, pyReplace, embedItems, substChain_cons,
    substChain_nil, data_mk]

/-- The template text decomposes into the initial segment followed by the
interleaved placeholders and segments. -/
theorem embedTemplate_decomp (cal : Calendar) :
    embedTemplate.data = embedSeg0 ++ tailP (embedItems cal) := by
  simp only [embedItems, tailP]
  decide

/-- The chain conditions hold whenever every interpolated configuration
string is brace-free. -/
theorem embedItems_ok (cal : Calendar) (hname : noBrace cal.name)
    (hlogo : noBrace (cal.logo_url.getD "")) (hslug : noBrace cal.slug)
    (hpc : noBrace cal.primary_color) (hac : noBrace cal.accent_color)
    (hbc : noBrace cal.background_color) (htc : noBrace cal.text_color)
    (htic : noBrace cal.title_color) (hdv : noBrace cal.desktop_view)
    (hmv : noBrace cal.mobile_view) (htz : noBrace cal.timezone) :
    ChainOK (embedItems cal) := by
  simp only [embedItems, ChainOK, tailP]
  exact ⟨by decide, embedLogoHtml_noBrace cal hname hlogo, by decide, by decide,
    by decide, embedTitleHtml_noBrace cal hname, by decide, by decide,
    by decide, hname, by decide, by decide,
    by decide, hslug, by decide, by decide,
    by decide, hpc, by decide, by decide,
    by decide, hac, by decide, by decide,
    by decide, hbc, by decide, by decide,
    by decide, htc, by decide, by decide,
    by decide, htic, by decide, by decide,
    by decide, hdv, by decide, by decide,
    by decide, hmv, by decide, by decide,
    by decide, htz, by decide, by decide,
    by decide, intToString_noBrace cal.logo_height, by decide, by decide,
    trivial⟩

/-- Exact shape of the rendered embed page for brace-free configurations:
the template text with every placeholder replaced by its raw value. -/
theorem renderEmbedPage_eq (cal : Calendar) (hname : noBrace cal.name)
    (hlogo : noBrace (cal.logo_url.getD "")) (hslug : noBrace cal.slug)
    (hpc : noBrace cal.primary_color) (hac : noBrace cal.accent_color)
    (hbc : noBrace cal.background_color) (htc : noBrace cal.text_color)
    (htic : noBrace cal.title_color) (hdv : noBrace cal.desktop_view)
    (hmv : noBrace cal.mobile_view) (htz : noBrace cal.timezone) :
    (renderEmbedPage cal).data = embedSeg0 ++ tailV (embedItems cal) := by
  rw [renderEmbedPage_substChain, embedTemplate_decomp cal]
  exact substChain_eq (embedItems cal) embedSeg0 (by decide)
    (embedItems_ok cal hname hlogo hslug hpc hac hbc htc htic hdv hmv htz)

/-- Facts the public lookup guarantees about the record it returns. -/
theorem getPublicBySlug_props {db : Store} {slug : String} {cal : Calendar}
    (h : getPublicBySlug db slug = some cal) :
    cal.slug = slug ∧ cal.is_public = true := by
  unfold getPublicBySlug at h
  have hp := List.find?_some h
  simp only [Bool.and_eq_true, beq_iff_eq] at hp
  exact hp

/-- C1 (counterexample): on the public tenant named `<x>`, the embed page
handler emits the name verbatim — the output differs from the rendering
with the mandated HTML escaping applied to `name`/`logoUrl`, and the raw
substring `<x>` reaches the markup (while the escaped form would not
contain it), so the configured name does break out of its HTML text
context, contrary to the claim. -/
theorem C1_counterexample :
    embed [calC1] "t" = .ok (renderEmbedPage calC1) ∧
    renderEmbedPage calC1 ≠ renderEmbedPageEscaped calC1 ∧
    "<x>".data <:+: (renderEmbedPage calC1).data ∧
    ¬ "<x>".data <:+: (htmlEscape "<x>").data :=
  ⟨rfl, by decide, by decide, by decide⟩

/-- C1 (amended): for every public tenant whose configured strings are free
of brace characters, the embed page contains the exact configured values of
all five theme colors; `name` and `logoUrl`, however, are embedded verbatim
with no HTML escaping — the emitted title markup contains the raw `name`
and the emitted logo markup the raw `logoUrl`. -/
theorem C1_embed_colors_exact_name_unescaped
    (db : Store) (slug : String) (cal : Calendar)
    (hfound : getPublicBySlug db slug = some cal)
    (hname : noBrace cal.name) (hlogo : noBrace (cal.logo_url.getD ""))
    (hslug : noBrace cal.slug) (hpc : noBrace cal.primary_color)
    (hac : noBrace cal.accent_color) (hbc : noBrace cal.background_color)
    (htc : noBrace cal.text_color) (htic : noBrace cal.title_color)
    (hdv : noBrace cal.desktop_view) (hmv : noBrace cal.mobile_view)
    (htz : noBrace cal.timezone) :
    embed db slug = .ok (renderEmbedPage cal) ∧
    cal.primary_color.data <:+: (renderEmbedPage cal).data ∧
    cal.accent_color.data <:+: (renderEmbedPage cal).data ∧
    cal.background_color.data <:+: (renderEmbedPage cal).data ∧
    cal.text_color.data <:+: (renderEmbedPage cal).data ∧
    cal.title_color.data <:+: (renderEmbedPage cal).data ∧
    (cal.show_name = true →
      ("<h1 style='margin-left:8px'>" ++ cal.name ++ "</h1>").data <:+:
        (renderEmbedPage cal).data) ∧
    (optStrFalsy cal.logo_url = false →
      ("<img class='logo' src=\"" ++ cal.logo_url.getD "" ++ "\" alt=\"" ++
        cal.name ++ " logo\">").data <:+: (renderEmbedPage cal).data) := by
  have hdata := renderEmbedPage_eq cal hname hlogo hslug hpc hac hbc htc htic
    hdv hmv htz
  refine ⟨?_, ?_, ?_, ?_, ?_, ?_, ?_, ?_⟩
  · unfold embed
    rw [hfound]
  · rw [hdata]
    simp only [embedItems, tailV, List.append_assoc, List.nil_append]
    repeat first
      | exact infix_self_append _ _
      | apply infix_extend_left
  · rw [hdata]
    simp only [embedItems, tailV, List.append_assoc, List.nil_append]
    repeat first
      | exact infix_self_append _ _
      | apply infix_extend_left
  · rw [hdata]
    simp only [embedItems, tailV, List.append_assoc, List.nil_append]
    repeat first
      | exact infix_self_append _ _
      | apply infix_extend_left
  · rw [hdata]
    simp only [embedItems, tailV, List.append_assoc, List.nil_append]
    repeat first
      | exact infix_self_append _ _
      | apply infix_extend_left
  · rw [hdata]
    simp only [embedItems, tailV, List.append_assoc, List.nil_append]
    repeat first
      | exact infix_self_append _ _
      | apply infix_extend_left
  · intro hshow
    have htitle : embedTitleHtml cal =
        "<h1 style='margin-left:8px'>" ++ cal.name ++ "</h1>" := by
      unfold embedTitleHtml
      rw [if_pos hshow]
    rw [hdata]
    simp only [embedItems, tailV, htitle, List.append_assoc, List.nil_append]
    repeat first
      | exact infix_self_append _ _
      | apply infix_extend_left
  · intro hlf
    have himg : embedLogoHtml cal =
        "<img class='logo' src=\"" ++ cal.logo_url.getD "" ++ "\" alt=\"" ++
          cal.name ++ " logo\">" := by
      unfold embedLogoHtml
      rw [if_neg (by simp [hlf])]
    rw [hdata]
    simp only [embedItems, tailV, himg, List.append_assoc, List.nil_append]
    repeat first
      | exact infix_self_append _ _
      | apply infix_extend_left

/-- Records with equal slugs in a duplicate-free store are the same
record. -/
theorem uniqueSlugs_same_slug {db : Store} (hu : uniqueSlugs db)
    {x c : Calendar} (hx : x ∈ db) (hc : c ∈ db) (hs : x.slug = c.slug) :
    x = c := by
  induction db with
  | nil => simp at hx
  | cons a l ih =>
    obtain ⟨ha, hl⟩ := List.pairwise_cons.mp hu
    rcases List.mem_cons.mp hx with rfl | hx'
    · rcases List.mem_cons.mp hc with rfl | hc'
      · rfl
      · exact absurd hs (ha c hc')
    · rcases List.mem_cons.mp hc with rfl | hc'
      · exact absurd hs.symm (ha x hx')
      · exact ih hl hx' hc'

/-- The admin lookup finds a stored record by its slug. -/
theorem getBySlug_of_mem {db : Store} {c : Calendar} {slug : String}
    (hu : uniqueSlugs db) (hc : c ∈ db) (hs : c.slug = slug) :
    getBySlug db slug = some c := by
  unfold getBySlug
  induction db with
  | nil => simp at hc
  | cons a l ih =>
    obtain ⟨ha, hl⟩ := List.pairwise_cons.mp hu
    rcases List.mem_cons.mp hc with rfl | hc'
    · simp [hs]
    · have hne : a.slug ≠ slug := fun h => (ha c hc') (h.trans hs.symm)
      rw [List.find?_cons_of_neg _ (by simpa using hne)]
      exact ih hl hc'

/-- The public lookup misses a stored non-public record. -/
theorem getPublicBySlug_none_of_private {db : Store} {c : Calendar}
    {slug : String} (hu : uniqueSlugs db) (hc : c ∈ db) (hs : c.slug = slug)
    (hp : c.is_public = false) : getPublicBySlug db slug = none := by
  unfold getPublicBySlug
  rw [List.find?_eq_none]
  intro x hx
  simp only [Bool.and_eq_true, beq_iff_eq, not_and]
  intro hxs
  have hxc : x = c := uniqueSlugs_same_slug hu hx hc (hxs.trans hs.symm)
  subst hxc
  simp [hp]

/-- C2: for every slug, a nonexistent tenant and a tenant stored with
`is_public = false` yield one and the same 404 error on both public embed
endpoints (`GET /c/{slug}/embed` and `GET /c/{slug}/embed.js`), while for
the stored non-public tenant the admin lookup by slug still returns the
record. -/
theorem C2_public_404_admin_still_finds (db : Store) (slug : String)
    (req : Req) :
    (getPublicBySlug db slug = none →
      embed db slug = .error ⟨404, "Calendar not found"⟩ ∧
      embed_script db slug req = .error ⟨404, "Calendar not found"⟩) ∧
    (∀ c, uniqueSlugs db → c ∈ db → c.slug = slug → c.is_public = false →
      getPublicBySlug db slug = none ∧ getBySlug db slug = some c) := by
  constructor
  · intro hnone
    constructor
    · unfold embed
      rw [hnone]
    · unfold embed_script
      rw [hnone]
  · intro c hu hc hs hp
    exact ⟨getPublicBySlug_none_of_private hu hc hs hp,
      getBySlug_of_mem hu hc hs⟩

/-- Closed witness for C2 at the one-record store holding the non-public
tenant `calPriv`. -/
theorem C2_public_404_admin_still_finds_witness :
    (embed [calPriv] "test" = .error ⟨404, "Calendar not found"⟩ ∧
      embed_script [calPriv] "test" {} = .error ⟨404, "Calendar not found"⟩) ∧
    (getPublicBySlug [calPriv] "test" = none ∧
      getBySlug [calPriv] "test" = some calPriv) :=
  ⟨(C2_public_404_admin_still_finds [calPriv] "test" {}).1 (by decide),
    (C2_public_404_admin_still_finds [calPriv] "test" {}).2 calPriv
      (by simp [uniqueSlugs]) (by simp) (by decide) (by decide)⟩

/-- Evaluation of the proxy once the tenant lookup has succeeded. -/
theorem proxy_ics_found {db : Store} {slug : String} {c : Calendar}
    (hfound : getBySlug db slug = some c) (fetch : String → FetchOutcome) :
    proxy_ics db slug fetch =
      match c.incoming_ics_url with
      | none => .error ⟨404, "Calendar or ICS not found"⟩
      | some url =>
        if url = "" then .error ⟨404, "Calendar or ICS not found"⟩
        else
          match fetch url with
          | .transportError msg => .error ⟨502, "ICS fetch failed: " ++ msg⟩
          | .response status body =>
            if 200 ≤ status ∧ status ≤ 299 then .ok (body, "text/calendar")
            else .error ⟨502, "ICS fetch failed: " ++
              statusErrorMessage status url⟩ := by
  unfold proxy_ics
  rw [hfound]

/-- C3: the ICS proxy returns one and the same 404 error when no tenant has
the slug and when the tenant exists but `incoming_ics_url` is unset (or
empty, which Python treats as unset). -/
theorem C3_proxy_404_indistinguishable (db : Store) (slug : String)
    (fetch : String → FetchOutcome) :
    (getBySlug db slug = none →
      proxy_ics db slug fetch = .error ⟨404, "Calendar or ICS not found"⟩) ∧
    (∀ c, getBySlug db slug = some c → optStrFalsy c.incoming_ics_url = true →
      proxy_ics db slug fetch = .error ⟨404, "Calendar or ICS not found"⟩) := by
  constructor
  · intro hnone
    unfold proxy_ics
    rw [hnone]
  · intro c hfound hfalsy
    unfold optStrFalsy at hfalsy
    rw [proxy_ics_found hfound fetch]
    match hurl : c.incoming_ics_url with
    | none => rfl
    | some u =>
      rw [hurl] at hfalsy
      have hu : u = "" := by simpa using hfalsy
      simp [hu]

/-- Closed witness for C3: a missing tenant and a feed-less tenant produce
the identical 404. -/
theorem C3_proxy_404_indistinguishable_witness :
    proxy_ics [calNoFeed] "absent" (fun _ => .transportError "x") =
      .error ⟨404, "Calendar or ICS not found"⟩ ∧
    proxy_ics [calNoFeed] "nofeed" (fun _ => .transportError "x") =
      .error ⟨404, "Calendar or ICS not found"⟩ :=
  ⟨(C3_proxy_404_indistinguishable [calNoFeed] "absent" _).1 (by decide),
    (C3_proxy_404_indistinguishable [calNoFeed] "nofeed" _).2 calNoFeed
      (by decide) (by decide)⟩

/-- C4 (counterexample): on a transport failure the proxy's 502 response
detail embeds the underlying cause string (`timeout` here) — the cause is
exposed to the caller, not withheld, and the handler contains no logging
call; the claim that the cause is "logged but not exposed in the response"
fails. -/
theorem C4_counterexample :
    proxy_ics [calFeed] "u" (fun _ => .transportError "timeout") =
      .error ⟨502, "ICS fetch failed: timeout"⟩ ∧
    "timeout".data <:+: ("ICS fetch failed: timeout").data :=
  ⟨rfl, by decide⟩

/-- C4 (amended): when the tenant has a configured feed URL, a
transport-level failure and a non-success upstream status both map to a 502
whose detail is `"ICS fetch failed: "` followed by the exception message;
the upstream's raw body is not relayed on failure (the failure response is
the same whatever the body was); the cause string, however, is embedded in
the response detail rather than logged. -/
theorem C4_upstream_502_cause_in_detail (db : Store) (slug : String)
    (c : Calendar) (fetch fetch' : String → FetchOutcome) (u : String)
    (hfound : getBySlug db slug = some c) (hurl : c.incoming_ics_url = some u)
    (hne : u ≠ "") :
    (∀ msg, fetch u = .transportError msg →
      proxy_ics db slug fetch = .error ⟨502, "ICS fetch failed: " ++ msg⟩ ∧
      msg.data <:+: ("ICS fetch failed: " ++ msg).data) ∧
    (∀ status body, fetch u = .response status body →
      ¬(200 ≤ status ∧ status ≤ 299) →
      proxy_ics db slug fetch =
        .error ⟨502, "ICS fetch failed: " ++ statusErrorMessage status u⟩) ∧
    (∀ status body body', fetch u = .response status body →
      fetch' u = .response status body' → ¬(200 ≤ status ∧ status ≤ 299) →
      proxy_ics db slug fetch = proxy_ics db slug fetch') := by
  have hbase : ∀ (f : String → FetchOutcome),
      proxy_ics db slug f =
        match f u with
        | .transportError msg => .error ⟨502, "ICS fetch failed: " ++ msg⟩
        | .response status body =>
          if 200 ≤ status ∧ status ≤ 299 then .ok (body, "text/calendar")
          else .error ⟨502, "ICS fetch failed: " ++ statusErrorMessage status u⟩ := by
    intro f
    rw [proxy_ics_found hfound f, hurl]
    simp [hne]
  refine ⟨?_, ?_, ?_⟩
  · intro msg hmsg
    rw [hbase fetch, hmsg]
    exact ⟨rfl, ⟨"ICS fetch failed: ".data, [], by simp⟩⟩
  · intro status body hresp hbad
    rw [hbase fetch, hresp]
    simp [if_neg hbad]
  · intro status body body' hresp hresp' hbad
    rw [hbase fetch, hbase fetch', hresp, hresp']
    simp [if_neg hbad]

/-- Closed witness for the amended C4 at a concrete store, a timing-out
transport and a 404 upstream. -/
theorem C4_upstream_502_cause_in_detail_witness :
    (proxy_ics [calFeed] "u" (fun _ => .transportError "timeout") =
      .error ⟨502, "ICS fetch failed: timeout"⟩ ∧
      "timeout".data <:+: ("ICS fetch failed: timeout").data) ∧
    proxy_ics [calFeed] "u" (fun _ => .response 404 "missing") =
      .error ⟨502, "ICS fetch failed: " ++
        statusErrorMessage 404 "http://up.example/feed.ics"⟩ ∧
    proxy_ics [calFeed] "u" (fun _ => .response 500 "bodyA") =
      proxy_ics [calFeed] "u" (fun _ => .response 500 "bodyB") :=
  ⟨(C4_upstream_502_cause_in_detail [calFeed] "u" calFeed _
      (fun _ => .transportError "x") "http://up.example/feed.ics"
      (by decide) (by decide) (by decide)).1 "timeout" rfl,
    (C4_upstream_502_cause_in_detail [calFeed] "u" calFeed _
      (fun _ => .transportError "x") "http://up.example/feed.ics"
      (by decide) (by decide) (by decide)).2.1 404 "missing" rfl (by decide),
    (C4_upstream_502_cause_in_detail [calFeed] "u" calFeed _ _
      "http://up.example/feed.ics"
      (by decide) (by decide) (by decide)).2.2 500 "bodyA" "bodyB" rfl rfl
      (by decide)⟩

/-- C7: when the upstream fetch succeeds (2xx), the proxy relays the
upstream content unchanged, with media type `text/calendar`. -/
theorem C7_proxy_relays_verbatim (db : Store) (slug : String) (c : Calendar)
    (fetch : String → FetchOutcome) (u : String) (status : Nat) (body : String)
    (hfound : getBySlug db slug = some c) (hurl : c.incoming_ics_url = some u)
    (hne : u ≠ "") (hresp : fetch u = .response status body)
    (hok : 200 ≤ status ∧ status ≤ 299) :
    proxy_ics db slug fetch = .ok (body, "text/calendar") := by
  rw [proxy_ics_found hfound fetch, hurl]
  simp [hne, hresp, hok]

/-- Closed witness for C7 at a concrete feed body. -/
theorem C7_proxy_relays_verbatim_witness :
    proxy_ics [calFeed] "u"
        (fun _ => .response 200 "BEGIN:VCALENDAR\nEND:VCALENDAR") =
      .ok ("BEGIN:VCALENDAR\nEND:VCALENDAR", "text/calendar") :=
  C7_proxy_relays_verbatim [calFeed] "u" calFeed _
    "http://up.example/feed.ics" 200 "BEGIN:VCALENDAR\nEND:VCALENDAR"
    (by decide) (by decide) (by decide) rfl (by decide)

/-- C5: the slug is the supplied one (when non-empty) or the slugified
name; an existence check precedes the insert; a conflict yields 400 with no
insertion, and otherwise exactly the new record (with the derived slug) is
appended. -/
theorem C5_create_conflict_or_insert (db : Store) (f : CreateForm)
    (fs : List String) :
    (∀ s', f.slug = some s' → s' ≠ "" → pyOr f.slug (make_slug f.name) = s') ∧
    (f.slug = none → pyOr f.slug (make_slug f.name) = make_slug f.name) ∧
    ((getBySlug db (pyOr f.slug (make_slug f.name))).isSome = true →
      create_calendar db f fs = .error ⟨400, "Slug already exists"⟩) ∧
    ((getBySlug db (pyOr f.slug (make_slug f.name))).isSome = false →
      ∃ cal fs', create_calendar db f fs = .ok (db ++ [cal], fs') ∧
        cal.slug = pyOr f.slug (make_slug f.name) ∧ cal.name = f.name ∧
        cal.is_public = true) := by
  refine ⟨?_, ?_, ?_, ?_⟩
  · intro s' hs' hne
    unfold pyOr
    rw [hs']
    simp [hne]
  · intro hnone
    unfold pyOr
    rw [hnone]
  · intro hex
    unfold create_calendar
    rw [if_pos hex]
  · intro hnoex
    unfold create_calendar
    rw [if_neg (by simp [hnoex])]
    exact ⟨_, _, rfl, rfl, rfl, rfl⟩

/-- Closed witness for C5, the spec's own scenario: an explicit `foo` slug
collides with a second create whose name `Foo` slugifies to `foo`. -/
theorem C5_create_conflict_or_insert_witness :
    make_slug "Foo" = "foo" ∧
    create_calendar [calFoo] { name := "Foo" } [] =
      .error ⟨400, "Slug already exists"⟩ ∧
    (∃ cal fs', create_calendar [] { name := "Foo" } [] = .ok ([] ++ [cal], fs') ∧
      cal.slug = pyOr none (make_slug "Foo") ∧ cal.name = "Foo" ∧
      cal.is_public = true) :=
  ⟨by decide,
    (C5_create_conflict_or_insert [calFoo] { name := "Foo" } []).2.2.1
      (by decide),
    (C5_create_conflict_or_insert [] { name := "Foo" } []).2.2.2 (by decide)⟩

/-- A record whose first slug-match is replaced keeps being found under the
same slug when the replacement preserves the slug. -/
theorem updateFirst_getBySlug {db : Store} {c : Calendar} {slug : String}
    (g : Calendar → Calendar) (hu : uniqueSlugs db) (hc : c ∈ db)
    (hs : c.slug = slug) :
    getBySlug (updateFirst (fun x => x.slug == slug) g db) slug =
      if (g c).slug = slug then some (g c) else none := by
  induction db with
  | nil => simp at hc
  | cons a l ih =>
    obtain ⟨ha, hl⟩ := List.pairwise_cons.mp hu
    by_cases hcase : a.slug == slug
    · have hac : a = c := by
        rcases List.mem_cons.mp hc with rfl | hc'
        · rfl
        · exact absurd ((beq_iff_eq.mp hcase).trans hs.symm) (ha c hc')
      subst hac
      unfold updateFirst getBySlug
      rw [if_pos hcase]
      by_cases hg : (g a).slug = slug
      · rw [if_pos hg, List.find?_cons_of_pos _ (by simpa using hg)]
      · rw [if_neg hg, List.find?_cons_of_neg _ (by simpa using hg),
          List.find?_eq_none]
        intro x hx hxs
        exact ha x hx ((beq_iff_eq.mp hcase).trans (beq_iff_eq.mp hxs).symm)
    · have hcl : c ∈ l := by
        rcases List.mem_cons.mp hc with rfl | hc'
        · exact absurd (by simpa using hs) hcase
        · exact hc'
      unfold updateFirst getBySlug
      rw [if_neg hcase, List.find?_cons_of_neg _ (by simpa using hcase)]
      exact ih hl hcl

/-- Records with a different slug survive `updateFirst` untouched. -/
theorem updateFirst_mem_of_ne {db : Store} {x : Calendar} {slug : String}
    (g : Calendar → Calendar) (hx : x ∈ db) (hne : x.slug ≠ slug) :
    x ∈ updateFirst (fun y => y.slug == slug) g db := by
  induction db with
  | nil => simp at hx
  | cons a l ih =>
    unfold updateFirst
    by_cases hcase : a.slug == slug
    · rw [if_pos hcase]
      rcases List.mem_cons.mp hx with rfl | hx'
      · exact absurd (beq_iff_eq.mp hcase) hne
      · exact List.mem_cons_of_mem _ hx'
    · rw [if_neg hcase]
      rcases List.mem_cons.mp hx with rfl | hx'
      · exact List.mem_cons_self _ _
      · exact List.mem_cons_of_mem _ (ih hx')

/-- The edit mutation only ever touches the logo fields beyond the scalar
overwrites. -/
theorem applyEdit_fst_shape (c : Calendar) (f : EditForm) (fs : List String) :
    ∃ lu lp, (applyEdit c f fs).1 =
      { applyScalars c f with logo_url := lu, logo_path := lp } := by
  unfold applyEdit
  cases f.logo_file with
  | some fn =>
    by_cases h : fn ≠ ""
    · simp only [if_pos h]
      exact ⟨_, _, rfl⟩
    · simp only [if_neg h]
      cases f.logo_url with
      | some u => exact ⟨_, _, rfl⟩
      | none => exact ⟨(applyScalars c f).logo_url, (applyScalars c f).logo_path, rfl⟩
  | none =>
    cases f.logo_url with
    | some u => exact ⟨_, _, rfl⟩
    | none => exact ⟨(applyScalars c f).logo_url, (applyScalars c f).logo_path, rfl⟩

/-- With no logo input the edit reduces to the scalar overwrites and leaves
the filesystem alone. -/
theorem applyEdit_no_logo_input (c : Calendar) (f : EditForm)
    (fs : List String) (h1 : f.logo_file = none) (h2 : f.logo_url = none) :
    applyEdit c f fs = (applyScalars c f, fs) := by
  unfold applyEdit
  rw [h1, h2]

/-- C6 (counterexample): an edit request supplying only `name` does not
retain the other stored fields — the stored feed URL is cleared to `None`
and the stored primary color is reset to the handler's default, so "every
field not supplied retains its previous stored value" fails. -/
theorem C6_counterexample :
    edit_calendar [calEdit] "a" { name := "Old" } [] = .ok ([calEditAfter], []) ∧
    calEdit.incoming_ics_url = some "http://x" ∧
    calEdit.primary_color = "#123456" ∧
    calEditAfter.incoming_ics_url = none ∧
    calEditAfter.primary_color = "#0b9444" :=
  ⟨rfl, rfl, rfl, rfl, rfl⟩

/-- C6 (amended): an edit of an existing tenant overwrites every scalar
field with the supplied value or the handler's declared default — omitted
fields are reset to defaults, not retained; only the logo fields are
retained, and only when the request supplies no logo input; `slug` and `id`
are never changed; records with other slugs are untouched. -/
theorem C6_edit_resets_to_defaults (db : Store) (slug : String) (f : EditForm)
    (fs : List String) (c : Calendar) (hu : uniqueSlugs db) (hc : c ∈ db)
    (hs : c.slug = slug) :
    ∃ db' fs', edit_calendar db slug f fs = .ok (db', fs') ∧
      getBySlug db' slug = some (applyEdit c f fs).1 ∧
      (applyEdit c f fs).1.slug = c.slug ∧
      (applyEdit c f fs).1.id = c.id ∧
      (applyEdit c f fs).1.name = f.name ∧
      (applyEdit c f fs).1.incoming_ics_url = f.incoming_ics_url ∧
      (applyEdit c f fs).1.timezone = (f.timezone).getD "America/New_York" ∧
      (applyEdit c f fs).1.desktop_view = (f.desktop_view).getD "dayGridMonth" ∧
      (applyEdit c f fs).1.mobile_view = (f.mobile_view).getD "listWeek" ∧
      (applyEdit c f fs).1.primary_color = (f.primary_color).getD "#0b9444" ∧
      (applyEdit c f fs).1.accent_color = (f.accent_color).getD "#0bd3d3" ∧
      (applyEdit c f fs).1.background_color = (f.background_color).getD "#ffffff" ∧
      (applyEdit c f fs).1.text_color = (f.text_color).getD "#222222" ∧
      (applyEdit c f fs).1.title_color = (f.title_color).getD "#ffffff" ∧
      (applyEdit c f fs).1.show_name = (f.show_name).getD false ∧
      (applyEdit c f fs).1.logo_height = (f.logo_height).getD 40 ∧
      (f.logo_file = none → f.logo_url = none →
        (applyEdit c f fs).1.logo_url = c.logo_url ∧
        (applyEdit c f fs).1.logo_path = c.logo_path) ∧
      (∀ x ∈ db, x.slug ≠ slug → x ∈ db') := by
  obtain ⟨lu, lp, hshape⟩ := applyEdit_fst_shape c f fs
  have hfound : getBySlug db slug = some c := getBySlug_of_mem hu hc hs
  have hslug' : (applyEdit c f fs).1.slug = c.slug := by rw [hshape]; rfl
  refine ⟨updateFirst (fun x => x.slug == slug) (fun _ => (applyEdit c f fs).1)
      db, (applyEdit c f fs).2, ?_, ?_, hslug', ?_, ?_, ?_, ?_, ?_, ?_, ?_,
    ?_, ?_, ?_, ?_, ?_, ?_, ?_, ?_⟩
  · unfold edit_calendar
    rw [hfound]
  · rw [updateFirst_getBySlug (fun _ => (applyEdit c f fs).1) hu hc hs,
      if_pos (hslug'.trans hs)]
  · rw [hshape]; rfl
  · rw [hshape]; rfl
  · rw [hshape]; rfl
  · rw [hshape]; rfl
  · rw [hshape]; rfl
  · rw [hshape]; rfl
  · rw [hshape]; rfl
  · rw [hshape]; rfl
  · rw [hshape]; rfl
  · rw [hshape]; rfl
  · rw [hshape]; rfl
  · rw [hshape]; rfl
  · rw [hshape]; rfl
  · intro h1 h2
    rw [applyEdit_no_logo_input c f fs h1 h2]
    exact ⟨rfl, rfl⟩
  · intro x hx hne
    exact updateFirst_mem_of_ne _ hx hne

/-- Closed witness for the amended C6: editing the stored tenant `calEdit`
with a name-only request. -/
theorem C6_edit_resets_to_defaults_witness :
    ∃ db' fs', edit_calendar [calEdit] "a" { name := "New" } [] = .ok (db', fs') ∧
      getBySlug db' "a" = some (applyEdit calEdit { name := "New" } []).1 ∧
      (applyEdit calEdit { name := "New" } []).1.slug = calEdit.slug ∧
      (applyEdit calEdit { name := "New" } []).1.id = calEdit.id ∧
      (applyEdit calEdit { name := "New" } []).1.name = "New" ∧
      (applyEdit calEdit { name := "New" } []).1.incoming_ics_url = none ∧
      (applyEdit calEdit { name := "New" } []).1.logo_url = calEdit.logo_url ∧
      (applyEdit calEdit { name := "New" } []).1.logo_path = calEdit.logo_path := by
  obtain ⟨db', fs', h1, h2, h3, h4, h5, h6, _, _, _, _, _, _, _, _, _, _,
    hlogo, _⟩ :=
    C6_edit_resets_to_defaults [calEdit] "a" { name := "New" } [] calEdit
      (by simp [uniqueSlugs]) (by simp) (by decide)
  exact ⟨db', fs', h1, h2, h3, h4, h5, h6, (hlogo rfl rfl).1, (hlogo rfl rfl).2⟩

/-- Evaluation of the delete handler once the lookup has succeeded. -/
theorem delete_calendar_found {db : Store} {slug : String} {c : Calendar}
    (hfound : getBySlug db slug = some c) (fs : List String) :
    delete_calendar db slug fs =
      .ok (removeFirst (fun x => x.slug == slug) db,
        match c.logo_path with
        | some p => fsRemoveSwallow p fs
        | none => fs) := by
  unfold delete_calendar
  rw [hfound]

/-- After removal of the sole record with a slug, no record with that slug
remains. -/
theorem removeFirst_slug_not_mem {db : Store} {slug : String}
    (hu : uniqueSlugs db) {x : Calendar}
    (hx : x ∈ removeFirst (fun y => y.slug == slug) db) : x.slug ≠ slug := by
  induction db with
  | nil => simp [removeFirst] at hx
  | cons a l ih =>
    obtain ⟨ha, hl⟩ := List.pairwise_cons.mp hu
    unfold removeFirst at hx
    by_cases hcase : a.slug == slug
    · rw [if_pos hcase] at hx
      intro hxs
      exact ha x hx ((beq_iff_eq.mp hcase).trans hxs.symm)
    · rw [if_neg hcase] at hx
      rcases List.mem_cons.mp hx with rfl | hx'
      · simpa using hcase
      · exact ih hl hx'

/-- C9: deleting an existing tenant removes its record — no record with the
slug appears in a subsequent `listAll` — and, when `logoPath` is set,
removes the blob from the uploads filesystem; the resulting store is the
same whatever the filesystem held (in particular when the blob was already
gone and `os.remove` failed), so a failed blob removal never blocks the
record deletion. -/
theorem C9_delete_removes_record_and_blob (db : Store) (slug : String)
    (fs : List String) (c : Calendar) (hu : uniqueSlugs db) (hc : c ∈ db)
    (hs : c.slug = slug) :
    ∃ db' fs', delete_calendar db slug fs = .ok (db', fs') ∧
      (∀ x ∈ listAll db', x.slug ≠ slug) ∧
      (∀ p, c.logo_path = some p → p ∉ fs') ∧
      (∀ fs2, ∃ fs2', delete_calendar db slug fs2 = .ok (db', fs2')) := by
  have hfound : getBySlug db slug = some c := getBySlug_of_mem hu hc hs
  refine ⟨removeFirst (fun x => x.slug == slug) db, _,
    delete_calendar_found hfound fs, ?_, ?_, ?_⟩
  · intro x hx
    exact removeFirst_slug_not_mem hu (List.mem_mergeSort.mp hx)
  · intro p hp
    rw [hp]
    unfold fsRemoveSwallow
    simp
  · intro fs2
    exact ⟨_, delete_calendar_found hfound fs2⟩

/-- Closed witness for C9 at a store holding `calLogo`, applied both with
the blob present and (via the last conjunct) with an empty filesystem where
the removal fails. -/
theorem C9_delete_removes_record_and_blob_witness :
    ∃ db' fs', delete_calendar [calLogo] "l" ["/data/uploads/l/logo.png"] =
        .ok (db', fs') ∧
      (∀ x ∈ listAll db', x.slug ≠ "l") ∧
      (∀ p, calLogo.logo_path = some p → p ∉ fs') ∧
      (∀ fs2, ∃ fs2', delete_calendar [calLogo] "l" fs2 = .ok (db', fs2')) :=
  C9_delete_removes_record_and_blob [calLogo] "l" ["/data/uploads/l/logo.png"]
    calLogo (by simp [uniqueSlugs]) (by simp) (by decide)

/-- The edit mutation never changes `is_public`. -/
theorem applyEdit_is_public (c : Calendar) (f : EditForm) (fs : List String) :
    (applyEdit c f fs).1.is_public = c.is_public := by
  obtain ⟨lu, lp, hshape⟩ := applyEdit_fst_shape c f fs
  rw [hshape]
  rfl

/-- Surviving records of `updateFirst` are old records or the replacement
of an old record. -/
theorem updateFirst_mem_cases {l : List α} {p : α → Bool} {g : α → α} {x : α}
    (hx : x ∈ updateFirst p g l) : x ∈ l ∨ ∃ c, c ∈ l ∧ x = g c := by
  induction l with
  | nil => simp [updateFirst] at hx
  | cons a t ih =>
    unfold updateFirst at hx
    by_cases hcase : p a
    · rw [if_pos hcase] at hx
      rcases List.mem_cons.mp hx with rfl | hx'
      · exact .inr ⟨a, List.mem_cons_self _ _, rfl⟩
      · exact .inl (List.mem_cons_of_mem _ hx')
    · rw [if_neg hcase] at hx
      rcases List.mem_cons.mp hx with rfl | hx'
      · exact .inl (List.mem_cons_self _ _)
      · rcases ih hx' with h | ⟨c, hcmem, hcx⟩
        · exact .inl (List.mem_cons_of_mem _ h)
        · exact .inr ⟨c, List.mem_cons_of_mem _ hcmem, hcx⟩

/-- Records surviving `removeFirst` were already present. -/
theorem removeFirst_subset {l : List α} {p : α → Bool} {x : α}
    (hx : x ∈ removeFirst p l) : x ∈ l := by
  induction l with
  | nil => simpa [removeFirst] using hx
  | cons a t ih =>
    unfold removeFirst at hx
    by_cases hcase : p a
    · rw [if_pos hcase] at hx
      exact List.mem_cons_of_mem _ hx
    · rw [if_neg hcase] at hx
      rcases List.mem_cons.mp hx with rfl | hx'
      · exact List.mem_cons_self _ _
      · exact List.mem_cons_of_mem _ (ih hx')

/-- A found record is a member of the store. -/
theorem getBySlug_mem {db : Store} {slug : String} {c : Calendar}
    (h : getBySlug db slug = some c) : c ∈ db :=
  List.mem_of_find?_eq_some h

/-- A successful create appends exactly one record, stored public. -/
theorem create_calendar_ok {db : Store} {f : CreateForm} {fs : List String}
    {st' : Store × List String} (h : create_calendar db f fs = .ok st') :
    ∃ cal, st'.1 = db ++ [cal] ∧ cal.is_public = true := by
  unfold create_calendar at h
  by_cases hex : (getBySlug db (pyOr f.slug (make_slug f.name))).isSome
  · rw [if_pos hex] at h
    cases h
  · rw [if_neg hex] at h
    injection h with h
    exact ⟨_, (congrArg Prod.fst h).symm, rfl⟩

/-- A successful edit replaces the first slug match with the edited
record. -/
theorem edit_calendar_ok {db : Store} {slug : String} {f : EditForm}
    {fs : List String} {st' : Store × List String}
    (h : edit_calendar db slug f fs = .ok st') :
    ∃ c, getBySlug db slug = some c ∧
      st'.1 = updateFirst (fun x => x.slug == slug)
        (fun _ => (applyEdit c f fs).1) db := by
  unfold edit_calendar at h
  match hfind : getBySlug db slug with
  | none => rw [hfind] at h; cases h
  | some c =>
    rw [hfind] at h
    dsimp only at h
    rcases happ : applyEdit c f fs with ⟨cal', fsx⟩
    rw [happ] at h
    injection h with h
    refine ⟨c, rfl, ?_⟩
    have h1 := congrArg Prod.fst h
    have h2 := congrArg Prod.fst happ
    simp only at h1 h2
    rw [← h1, h2]

/-- A successful delete removes the first slug match and nothing else. -/
theorem delete_calendar_ok {db : Store} {slug : String} {fs : List String}
    {st' : Store × List String} (h : delete_calendar db slug fs = .ok st') :
    st'.1 = removeFirst (fun x => x.slug == slug) db := by
  unfold delete_calendar at h
  match hfind : getBySlug db slug with
  | none => rw [hfind] at h; cases h
  | some c =>
    rw [hfind] at h
    dsimp only at h
    injection h with h
    exact (congrArg Prod.fst h).symm

/-- Each admin mutation preserves all-public stores: create inserts with
`is_public=True` unconditionally, edit never assigns `is_public`, delete
only removes. -/
theorem applyOp_allPublic (st : Store × List String) (op : AdminOp)
    (h : allPublic st.1) : allPublic (applyOp st op).1 := by
  cases op with
  | create f =>
    simp only [applyOp]
    match hres : create_calendar st.1 f st.2 with
    | .error e => exact h
    | .ok st' =>
      obtain ⟨cal, hdb, hpub⟩ := create_calendar_ok hres
      show allPublic st'.1
      intro c hc
      rw [hdb] at hc
      rcases List.mem_append.mp hc with hold | hnew
      · exact h c hold
      · rw [List.mem_singleton.mp hnew]
        exact hpub
  | edit slug f =>
    simp only [applyOp]
    match hres : edit_calendar st.1 slug f st.2 with
    | .error e => exact h
    | .ok st' =>
      obtain ⟨c, hfind, hdb⟩ := edit_calendar_ok hres
      show allPublic st'.1
      intro x hx
      rw [hdb] at hx
      rcases updateFirst_mem_cases hx with hold | ⟨c', hcmem, hcx⟩
      · exact h x hold
      · rw [hcx, applyEdit_is_public]
        exact h c (getBySlug_mem hfind)
  | delete slug =>
    simp only [applyOp]
    match hres : delete_calendar st.1 slug st.2 with
    | .error e => exact h
    | .ok st' =>
      have hdb := delete_calendar_ok hres
      show allPublic st'.1
      intro x hx
      rw [hdb] at hx
      exact h x (removeFirst_subset hx)

/-- C10: every tenant record reachable through the program's own
operations is public — starting from an all-public store (in particular the
empty one), any sequence of create/edit/delete requests leaves every stored
record with `is_public = true`; the non-public state the spec describes is
unreachable through this code. -/
theorem C10_reachable_all_public (ops : List AdminOp)
    (st : Store × List String) (h : allPublic st.1) :
    allPublic (runOps st ops).1 := by
  induction ops generalizing st with
  | nil => exact h
  | cons op rest ih =>
    unfold runOps
    rw [List.foldl_cons]
    exact ih _ (applyOp_allPublic st op h)

/-- Closed witness for C10: from the empty store, a create followed by an
edit leaves only public records. -/
theorem C10_reachable_all_public_witness :
    allPublic ([] : Store) ∧
    allPublic (runOps ([], [])
      [AdminOp.create { name := "A" },
        AdminOp.edit "a" { name := "B", show_name := some true }]).1 :=
  ⟨by intro c hc; simp at hc,
    C10_reachable_all_public _ ([], []) (by intro c hc; simp at hc)⟩

/-- A nested triple is an infix of the same triple followed by a
remainder. -/
theorem infix_triple (a b c r : List Char) :
    (a ++ (b ++ c)) <:+: a ++ (b ++ (c ++ r)) := by
  have h := infix_self_append (a ++ (b ++ c)) r
  simpa [List.append_assoc] using h

/-- C8: the script generator resolves its base URL from the
`x-forwarded-proto`/`x-forwarded-host` headers with fallback to the request
URL's scheme and netloc; the generated script's sole event source is
exactly `{base}/api/cal/{slug}/ics` (a one-element `events` array whose
entry also appears literally in the script text); and the logo URL passes
through unchanged when absolute (`http://`/`https://`) and is prefixed with
the base otherwise. -/
theorem C8_embed_script_base_icsurl_logo (db : Store) (slug : String)
    (req : Req) (cal : Calendar)
    (hfound : getPublicBySlug db slug = some cal) :
    embed_script db slug req = .ok (embedScriptJs (resolveBase req) cal) ∧
    cal.slug = slug ∧
    (∀ p h, req.xForwardedProto = some p → req.xForwardedHost = some h →
      resolveBase req = rstripSlash (p ++ "://" ++ h)) ∧
    (req.xForwardedProto = none → req.xForwardedHost = none →
      resolveBase req = rstripSlash (req.urlScheme ++ "://" ++ req.urlNetloc)) ∧
    (embedScriptConfig (resolveBase req) cal).events =
      [(resolveBase req ++ "/api/cal/" ++ cal.slug ++ "/ics", "ics")] ∧
    ("events:[\x7burl:'" ++ icsProxyUrl (resolveBase req) cal.slug ++
      "',format:'ics'\x7d]").data <:+:
      (embedScriptJs (resolveBase req) cal).data ∧
    (∀ u, cal.logo_url = some u → u ≠ "" →
      (("http://".data.isPrefixOf u.data ||
          "https://".data.isPrefixOf u.data) = true →
        embedScriptLogoUrl (resolveBase req) cal = u) ∧
      (("http://".data.isPrefixOf u.data ||
          "https://".data.isPrefixOf u.data) = false →
        embedScriptLogoUrl (resolveBase req) cal = resolveBase req ++ u)) := by
  refine ⟨?_, (getPublicBySlug_props hfound).1, ?_, ?_, rfl, ?_, ?_⟩
  · unfold embed_script
    rw [hfound]
  · intro p h hp hh
    unfold resolveBase
    rw [hp, hh]
    rfl
  · intro hp hh
    unfold resolveBase
    rw [hp, hh]
    rfl
  · have h13 : jsChunk13 = "'," ++ "events:[\x7burl:'" := by decide
    have h14 : jsChunk14 = "',format:'ics'\x7d]" ++
        "\x7d);\n    calendar.render();\n    \x7d\n    if (document.readyState === 'loading') \x7b\n      document.addEventListener('DOMContentLoaded', init);\n    \x7d else \x7b\n      init();\n    \x7d\n  \x7d)();\n  " := by
      decide
    unfold embedScriptJs
    rw [h13, h14]
    simp only [String.data_append, List.append_assoc]
    apply infix_extend_left
    apply infix_extend_left
    exact infix_triple _ _ _ _
  · intro u hu hne
    constructor
    · intro habs
      unfold embedScriptLogoUrl
      rw [hu]
      simp [hne, habs]
    · intro hrel
      unfold embedScriptLogoUrl
      rw [hu]
      simp [hne, hrel]

/-- Closed witness for C8 at the tenant `calW` (relative logo URL) and the
forwarded request `reqW`. -/
theorem C8_embed_script_base_icsurl_logo_witness :
    embed_script [calW] "team" reqW = .ok (embedScriptJs (resolveBase reqW) calW) ∧
    resolveBase reqW = rstripSlash ("https" ++ "://" ++ "cal.example.org") ∧
    (embedScriptConfig (resolveBase reqW) calW).events =
      [(resolveBase reqW ++ "/api/cal/" ++ "team" ++ "/ics", "ics")] ∧
    ("events:[\x7burl:'" ++ icsProxyUrl (resolveBase reqW) "team" ++
      "',format:'ics'\x7d]").data <:+:
      (embedScriptJs (resolveBase reqW) calW).data ∧
    embedScriptLogoUrl (resolveBase reqW) calW =
      resolveBase reqW ++ "/uploads/team/logo.png" := by
  obtain ⟨h1, hslug, h2, h3, h4, h5, h6⟩ :=
    C8_embed_script_base_icsurl_logo [calW] "team" reqW calW rfl
  exact ⟨h1, h2 "https" "cal.example.org" rfl rfl, h4, h5,
    (h6 "/uploads/team/logo.png" rfl (by decide)).2 (by decide)⟩

/-- Closed witness for the amended C1 at the concrete tenant `calW`. -/
theorem C1_embed_colors_exact_name_unescaped_witness :
    getPublicBySlug [calW] "team" = some calW ∧ noBrace calW.name ∧
    (embed [calW] "team" = .ok (renderEmbedPage calW) ∧
      calW.primary_color.data <:+: (renderEmbedPage calW).data ∧
      calW.accent_color.data <:+: (renderEmbedPage calW).data ∧
      calW.background_color.data <:+: (renderEmbedPage calW).data ∧
      calW.text_color.data <:+: (renderEmbedPage calW).data ∧
      calW.title_color.data <:+: (renderEmbedPage calW).data ∧
      (calW.show_name = true →
        ("<h1 style='margin-left:8px'>" ++ calW.name ++ "</h1>").data <:+:
          (renderEmbedPage calW).data) ∧
      (optStrFalsy calW.logo_url = false →
        ("<img class='logo' src=\"" ++ calW.logo_url.getD "" ++ "\" alt=\"" ++
          calW.name ++ " logo\">").data <:+: (renderEmbedPage calW).data)) :=
  ⟨rfl, by decide,
    C1_embed_colors_exact_name_unescaped [calW] "team" calW rfl (by decide)
      (by decide) (by decide) (by decide) (by decide) (by decide) (by decide)
      (by decide) (by decide) (by decide) (by decide)⟩

end CalHub
